import Mathlib

/-!
# Week12CRDApi — the team list controller of `script.js`

A shallow embedding of the browser script: JavaScript values as an inductive
type, the page (list container, form, console, network log) as an explicit
world state, and every function of the script as a state-passing computation
that may throw.
-/

namespace TeamApp

/-! ## JavaScript values -/

/-- A thrown JavaScript value: the constructor name of the error and its message. -/
structure JSError where
  name : String
  message : String
deriving DecidableEq, Repr

/-- The values `response.json()` can produce, plus `undefined`.  Numbers are the
integers that `ToString` renders in decimal; strings are sequences of Unicode
scalar values. -/
inductive JSValue where
  | undefined
  | null
  | bool (b : Bool)
  | num (n : Int)
  | str (s : String)
  | arr (items : List JSValue)
  | obj (props : List (String × JSValue))
deriving Repr

/-- Own property lookup in the property list of an object. -/
def lookupProp (key : String) : List (String × JSValue) → JSValue
  | [] => .undefined
  | (k, v) :: rest => if k = key then v else lookupProp key rest

/-- Whether an object has an own property of that name. -/
def hasOwn (key : String) : List (String × JSValue) → Bool
  | [] => false
  | (k, _) :: rest => k = key || hasOwn key rest

/-- The property names the script reads from a team. -/
inductive Field where
  | id | name | conference | division | city
deriving DecidableEq, Repr

/-- The property name, as written in the script. -/
def Field.key : Field → String
  | .id => "id"
  | .name => "name"
  | .conference => "conference"
  | .division => "division"
  | .city => "city"

/-- The member access `team.f` for one of the five names the script uses: a
`TypeError` on `undefined` and `null`, the own property of an object, and
`undefined` on every other value (none of the five names is inherited). -/
def JSValue.get (v : JSValue) (f : Field) : Except JSError JSValue :=
  match v with
  | .undefined => .error ⟨"TypeError", "Cannot read properties of undefined"⟩
  | .null => .error ⟨"TypeError", "Cannot read properties of null"⟩
  | .obj props => .ok (lookupProp f.key props)
  | _ => .ok .undefined

mutual
/-- The abstract operation `ToString`, which a template literal applies to each
substitution.  An object is rendered by `Object.prototype.toString` unless an
own (non-callable) `toString` property shadows it; an array by `join`. -/
def JSValue.toStr : JSValue → Except JSError String
  | .undefined => .ok "undefined"
  | .null => .ok "null"
  | .bool true => .ok "true"
  | .bool false => .ok "false"
  | .num n => .ok (toString n)
  | .str s => .ok s
  | .arr items => (JSValue.joinParts items).map (String.intercalate ",")
  | .obj props =>
    if hasOwn "toString" props then
      .error ⟨"TypeError", "Cannot convert object to primitive value"⟩
    else .ok "[object Object]"
/-- The pieces `Array.prototype.join` puts between the separators. -/
def JSValue.joinParts : List JSValue → Except JSError (List String)
  | [] => .ok []
  | .undefined :: rest => (JSValue.joinParts rest).map ("" :: ·)
  | .null :: rest => (JSValue.joinParts rest).map ("" :: ·)
  | v :: rest =>
    match JSValue.toStr v with
    | .error e => .error e
    | .ok s => (JSValue.joinParts rest).map (s :: ·)
end

/-! ## `JSON.stringify` -/

/-- Lower-case hexadecimal digit of a number below sixteen. -/
def hexDigit (n : Nat) : Char :=
  if n < 10 then Char.ofNat (48 + n) else Char.ofNat (87 + n)

/-- The escape `QuoteJSONString` writes for one character. -/
def escapeJSONChar (c : Char) : String :=
  if c = Char.ofNat 34 then "\\\""
  else if c = Char.ofNat 92 then "\\\\"
  else if c = Char.ofNat 8 then "\\b"
  else if c = Char.ofNat 12 then "\\f"
  else if c = Char.ofNat 10 then "\\n"
  else if c = Char.ofNat 13 then "\\r"
  else if c = Char.ofNat 9 then "\\t"
  else if c.toNat < 32 then
    "\\u00" ++ String.mk [hexDigit (c.toNat / 16), hexDigit (c.toNat % 16)]
  else String.singleton c

/-- The operation `QuoteJSONString`: the string between double quotes, escaped. -/
def quoteJSONString (s : String) : String :=
  "\"" ++ String.join (s.toList.map escapeJSONChar) ++ "\""

mutual
/-- The JSON text of a value, `none` where `JSON.stringify` yields `undefined`. -/
def JSValue.stringify : JSValue → Option String
  | .undefined => none
  | .null => some "null"
  | .bool true => some "true"
  | .bool false => some "false"
  | .num n => some (toString n)
  | .str s => some (quoteJSONString s)
  | .arr items => some ("[" ++ String.intercalate "," (JSValue.stringifyItems items) ++ "]")
  | .obj props => some ("\x7b" ++ String.intercalate "," (JSValue.stringifyProps props) ++ "\x7d")
/-- Array elements: an element without a JSON text is written `null`. -/
def JSValue.stringifyItems : List JSValue → List String
  | [] => []
  | v :: rest => (JSValue.stringify v).getD "null" :: JSValue.stringifyItems rest
/-- Object members: a property without a JSON text is left out. -/
def JSValue.stringifyProps : List (String × JSValue) → List String
  | [] => []
  | (k, v) :: rest =>
    match JSValue.stringify v with
    | none => JSValue.stringifyProps rest
    | some t => (quoteJSONString k ++ ":" ++ t) :: JSValue.stringifyProps rest
end

/-! ## Reading a JSON string back -/

/-- The value of a hexadecimal digit. -/
def hexValue (c : Char) : Option Nat :=
  if 48 ≤ c.toNat ∧ c.toNat ≤ 57 then some (c.toNat - 48)
  else if 97 ≤ c.toNat ∧ c.toNat ≤ 102 then some (c.toNat - 87)
  else if 65 ≤ c.toNat ∧ c.toNat ≤ 70 then some (c.toNat - 55)
  else none

/-- The character a one-letter escape of JSON stands for. -/
def unescapeJSONChar (e : Char) : Option Char :=
  if e = Char.ofNat 34 then some (Char.ofNat 34)
  else if e = Char.ofNat 92 then some (Char.ofNat 92)
  else if e = '/' then some '/'
  else if e = 'b' then some (Char.ofNat 8)
  else if e = 'f' then some (Char.ofNat 12)
  else if e = 'n' then some (Char.ofNat 10)
  else if e = 'r' then some (Char.ofNat 13)
  else if e = 't' then some (Char.ofNat 9)
  else none

/-- Where the reader of a JSON string stands: in plain characters, after a
backslash, or inside the four hexadecimal digits of an escape. -/
inductive ReadState where
  | plain
  | escape
  | hex (seen : Nat) (acc : Nat)
deriving DecidableEq, Repr

/-- The grammar of a JSON string after its opening quote: the characters it
denotes and what follows the closing quote. -/
def readJSONChars (st : ReadState) : List Char → Option (List Char × List Char)
  | [] => none
  | c :: rest =>
    match st with
    | .plain =>
      if c = Char.ofNat 34 then some ([], rest)
      else if c = Char.ofNat 92 then readJSONChars .escape rest
      else if c.toNat < 32 then none
      else (readJSONChars .plain rest).map (fun r => (c :: r.1, r.2))
    | .escape =>
      if c = 'u' then readJSONChars (.hex 0 0) rest
      else
        match unescapeJSONChar c with
        | none => none
        | some ch => (readJSONChars .plain rest).map (fun r => (ch :: r.1, r.2))
    | .hex seen acc =>
      match hexValue c with
      | none => none
      | some x =>
        if seen = 3 then
          (readJSONChars .plain rest).map (fun r => (Char.ofNat (acc * 16 + x) :: r.1, r.2))
        else readJSONChars (.hex (seen + 1) (acc * 16 + x)) rest

/-- The grammar of a JSON string: the characters it denotes and what follows it. -/
def readJSONString : List Char → Option (List Char × List Char)
  | [] => none
  | c :: rest => if c = Char.ofNat 34 then readJSONChars .plain rest else none

/-- One member of an object whose values are strings: the key, the value and
what follows. -/
def readMember (cs : List Char) : Option ((List Char × List Char) × List Char) :=
  match readJSONString cs with
  | none => none
  | some (key, rest) =>
    match rest with
    | [] => none
    | c :: rest1 =>
      if c = ':' then
        match readJSONString rest1 with
        | none => none
        | some (value, rest2) => some ((key, value), rest2)
      else none

/-- The members of an object up to its closing brace; `fuel` bounds their number. -/
def readMembers : Nat → List Char → Option (List (List Char × List Char))
  | 0, _ => none
  | fuel + 1, cs =>
    match readMember cs with
    | none => none
    | some (m, rest) =>
      match rest with
      | [] => none
      | c :: rest1 =>
        if c = Char.ofNat 125 ∧ rest1 = [] then some [m]
        else if c = ',' then (readMembers fuel rest1).map (m :: ·)
        else none

/-- The grammar of a compact JSON object whose values are strings: its members
in order. -/
def readObject (text : String) : Option (List (String × String)) :=
  match text.data with
  | [] => none
  | c :: rest =>
    if c = Char.ofNat 123 then
      (readMembers text.data.length rest).map
        (fun ms => ms.map (fun m => (String.mk m.1, String.mk m.2)))
    else none

/-! ## The page -/

/-- An element of the list container: its tag, its `className` and the markup
last assigned to its `innerHTML`. -/
structure Element where
  tagName : String
  className : String
  innerHTML : String
deriving DecidableEq, Repr

/-- The values of the four text inputs of the form. -/
structure FormValues where
  name : String
  conference : String
  division : String
  city : String
deriving DecidableEq, Repr

/-- A request handed to `fetch`. -/
structure Request where
  method : String
  url : String
  headers : List (String × String)
  body : Option String
deriving DecidableEq, Repr

/-- What the script does to the outside, in the order it happens. -/
inductive Event where
  | request (r : Request)
  | consoleError (label : String) (error : JSError)
  | preventDefault
  | formReset
deriving DecidableEq, Repr

/-- A suspended `async` body waiting for the network. -/
inductive Suspended where
  | fetchTeams
deriving DecidableEq, Repr

/-- The state the script acts on.  `teamList` holds the children of the list
container in document order; `defaults` are the values `form.reset()` restores
(they come from the page markup); `suspended` are the un-awaited calls whose
request is in flight. -/
structure World where
  teamList : List Element
  inputs : FormValues
  defaults : FormValues
  trace : List Event
  suspended : List Suspended
deriving DecidableEq, Repr

/-- A `Response`: its status and what `response.json()` settles to. -/
structure Response where
  status : Nat
  json : Except JSError JSValue

/-- How the promise returned by `fetch` settles. -/
inductive FetchOutcome where
  | rejects (error : JSError)
  | responds (response : Response)

/-! ## Computations that act on the page and may throw -/

/-- A computation: from a world to a completion (normal or abrupt) and the world
it leaves.  Effects made before a throw stay. -/
def JS (α : Type) : Type := World → Except JSError α × World

/-- Normal completion. -/
def JS.pure {α : Type} (a : α) : JS α := fun w => (.ok a, w)

/-- Sequencing: an abrupt completion skips the rest. -/
def JS.bind {α β : Type} (x : JS α) (f : α → JS β) : JS β := fun w =>
  match x w with
  | (.ok a, w1) => f a w1
  | (.error e, w1) => (.error e, w1)

/-- The statement `throw e`. -/
def JS.throw {α : Type} (e : JSError) : JS α := fun w => (.error e, w)

/-- The statement `try body catch (e) handler`. -/
def JS.tryCatch {α : Type} (body : JS α) (handler : JSError → JS α) : JS α := fun w =>
  match body w with
  | (.ok a, w1) => (.ok a, w1)
  | (.error e, w1) => handler e w1

instance : Monad JS where
  pure := JS.pure
  bind := JS.bind

instance : MonadExcept JSError JS where
  throw := JS.throw
  tryCatch := JS.tryCatch

/-- Lifting a completion that touches nothing. -/
def JS.ofExcept {α : Type} (r : Except JSError α) : JS α := fun w => (r, w)

/-- Appending one event to the trace. -/
def emit (ev : Event) : JS Unit := fun w => (.ok (), { w with trace := w.trace ++ [ev] })

/-- The call `console.error(label, error)`. -/
def consoleError (label : String) (error : JSError) : JS Unit :=
  emit (.consoleError label error)

/-! ## The script -/

/-- The constant `API_URL`. -/
def API_URL : String := "http://localhost:3000/teams"

/-- The expression `await fetch(url, init)`: the request leaves, and the
promise settles as the outcome says. -/
def awaitFetch (req : Request) (outcome : FetchOutcome) : JS Response := do
  emit (.request req)
  match outcome with
  | .rejects error => throw error
  | .responds response => pure response

/-- The expression `await response.json()`. -/
def awaitJson (response : Response) : JS JSValue := JS.ofExcept response.json

/-- The text of `team.f`: member access, then `ToString`. -/
def fieldText (team : JSValue) (f : Field) : Except JSError String :=
  match team.get f with
  | .error e => .error e
  | .ok v => v.toStr

/-- The substitution of `team.f` in the template literal. -/
def substitute (team : JSValue) (f : Field) : JS String :=
  JS.ofExcept (fieldText team f)

/-- The template literal of `displayTeams` with its five substitutions filled in. -/
def rowMarkup (name conference division city id : String) : String :=
  "\n            <div>\n                <h5 class=\"team-name\">" ++ name
    ++ "</h5>\n                <p class=\"team-info mb-0\">\n                    "
    ++ conference ++ " " ++ division ++ " | " ++ city
    ++ "\n                </p>\n            </div>\n            <button class=\"btn btn-danger btn-sm delete-btn\" data-id=\""
    ++ id ++ "\">\n                Delete\n            </button>\n        "

/-- The value assigned to `className` of every row. -/
def rowClassName : String :=
  "list-group-item team-item d-flex justify-content-between align-items-center"

/-- The assignment `teamList.innerHTML = ''`: the container loses its children. -/
def clearTeamList : JS Unit := fun w => (.ok (), { w with teamList := [] })

/-- The call `teamList.appendChild(el)`. -/
def appendChild (el : Element) : JS Unit := fun w =>
  (.ok (), { w with teamList := w.teamList ++ [el] })

/-- The arrow function handed to `forEach`: one row is built and appended. -/
def renderTeam (team : JSValue) : JS Unit := do
  let name ← substitute team .name
  let conference ← substitute team .conference
  let division ← substitute team .division
  let city ← substitute team .city
  let id ← substitute team .id
  appendChild ⟨"div", rowClassName, rowMarkup name conference division city id⟩

/-- The loop of `Array.prototype.forEach` over the elements. -/
def forEachItem (callback : JSValue → JS Unit) : List JSValue → JS Unit
  | [] => pure ()
  | item :: rest => do
    callback item
    forEachItem callback rest

/-- The call `teams.forEach(callback)`: only an array has the method. -/
def forEach (teams : JSValue) (callback : JSValue → JS Unit) : JS Unit :=
  match teams with
  | .arr items => forEachItem callback items
  | .undefined => throw ⟨"TypeError", "Cannot read properties of undefined"⟩
  | .null => throw ⟨"TypeError", "Cannot read properties of null"⟩
  | _ => throw ⟨"TypeError", "teams.forEach is not a function"⟩

/-- The function `displayTeams`. -/
def displayTeams (teams : JSValue) : JS Unit := do
  clearTeamList
  forEach teams renderTeam

/-- The request of `fetchTeams`. -/
def listRequest : Request := ⟨"GET", API_URL, [], none⟩

/-- The body of `fetchTeams` after `fetch(API_URL)` was called, given how that
fetch settles. -/
def fetchTeamsResume (outcome : FetchOutcome) : JS Unit :=
  tryCatch
    (do
      let response ← JS.ofExcept (match outcome with
        | .rejects error => .error error
        | .responds response => .ok response)
      let teams ← awaitJson response
      displayTeams teams)
    (fun error => consoleError "Error fetching teams:" error)

/-- A call `fetchTeams()` that is not awaited (every call in the script): the
body runs up to its first `await`, so the request leaves and the rest is
suspended. -/
def fetchTeamsCall : JS Unit := do
  emit (.request listRequest)
  fun w => (.ok (), { w with suspended := w.suspended ++ [.fetchTeams] })

/-- The last statement of the script: the list is requested when the page loads. -/
def pageLoad : JS Unit := fetchTeamsCall

/-- The network answers the oldest request in flight of a suspended
`fetchTeams`, whose body then runs to its end. -/
def deliver (outcome : FetchOutcome) : JS Unit := fun w =>
  match w.suspended with
  | [] => (.ok (), w)
  | .fetchTeams :: rest => fetchTeamsResume outcome { w with suspended := rest }

/-- The function `fetchTeams` run from call to settlement. -/
def fetchTeams (outcome : FetchOutcome) : JS Unit :=
  tryCatch
    (do
      let response ← awaitFetch listRequest outcome
      let teams ← awaitJson response
      displayTeams teams)
    (fun error => consoleError "Error fetching teams:" error)

/-- The request of `createTeam`. -/
def createRequest (team : JSValue) : Request :=
  ⟨"POST", API_URL, [("Content-Type", "application/json")], team.stringify⟩

/-- The function `createTeam`, up to the settlement of the promise it returns. -/
def createTeam (team : JSValue) (outcome : FetchOutcome) : JS JSValue :=
  tryCatch
    (do
      let response ← awaitFetch (createRequest team) outcome
      let newTeam ← awaitJson response
      fetchTeamsCall
      pure newTeam)
    (fun error => do
      consoleError "Error creating team:" error
      pure .undefined)

/-- The function `deleteTeam`, up to the settlement of the promise it returns. -/
def deleteTeam (id : JSValue) (outcome : FetchOutcome) : JS Unit :=
  tryCatch
    (do
      let idText ← JS.ofExcept id.toStr
      let _ ← awaitFetch ⟨"DELETE", API_URL ++ "/" ++ idText, [], none⟩ outcome
      fetchTeamsCall)
    (fun error => consoleError "Error deleting team:" error)

/-- The call `teamForm.reset()`: every input returns to its default value. -/
def resetForm : JS Unit := fun w =>
  (.ok (), { w with inputs := w.defaults, trace := w.trace ++ [.formReset] })

/-- Reading the four inputs, as the submit listener does. -/
def readInputs : JS FormValues := fun w => (.ok w.inputs, w)

/-- The object literal the submit listener builds. -/
def newTeamOf (v : FormValues) : JSValue :=
  .obj [("name", .str v.name), ("conference", .str v.conference),
    ("division", .str v.division), ("city", .str v.city)]

/-- The `submit` listener of the form. -/
def onSubmit (outcome : FetchOutcome) : JS Unit := do
  emit .preventDefault
  let values ← readInputs
  let newTeam := newTeamOf values
  let _ ← createTeam newTeam outcome
  resetForm

/-- The element a click lands on: its tag and its attributes. -/
structure Target where
  tagName : String
  attrs : List (String × String)
deriving DecidableEq, Repr

/-- The value of an attribute, if the element has it. -/
def attrValue (name : String) : List (String × String) → Option String
  | [] => none
  | (k, v) :: rest => if k = name then some v else attrValue name rest

/-- The characters that separate the tokens of a `class` attribute. -/
def isAsciiWhitespace (c : Char) : Bool :=
  c = ' ' || c = '\t' || c = '\n' || c = Char.ofNat 12 || c = '\r'

/-- Splitting on ASCII whitespace; `cur` is the token being read. -/
def splitTokens (cur : List Char) : List Char → List (List Char)
  | [] => if cur = [] then [] else [cur]
  | c :: rest =>
    if isAsciiWhitespace c then
      if cur = [] then splitTokens [] rest else cur :: splitTokens [] rest
    else splitTokens (cur ++ [c]) rest

/-- The property `classList` of the element. -/
def Target.classList (t : Target) : List String :=
  match attrValue "class" t.attrs with
  | none => []
  | some v => (splitTokens [] v.data).map String.mk

/-- The property `dataset.id` of the element. -/
def Target.datasetId (t : Target) : JSValue :=
  match attrValue "data-id" t.attrs with
  | none => .undefined
  | some v => .str v

/-- The `click` listener of the list container. -/
def onClick (target : Target) (outcome : FetchOutcome) : JS Unit := do
  if target.classList.contains "delete-btn" then
    let teamId := target.datasetId
    deleteTeam teamId outcome

/-! ## Reading markup back

The rows are written as markup, and both the text a user sees and the element a
click lands on come from the browser reading that markup back.  What follows is
the tokenizer of the HTML standard (section 13.2.5) for the part of the language
the rows are written in: character data, start and end tags of `div`, `h5`, `p`,
`button` and `span`, and their attributes.  Everything else (character
references, comments, other elements, NUL and CR) leads to the state
`unsupported`, about which nothing is stated. -/

/-- The tokenizer states that are modelled. -/
inductive Mode where
  | data
  | tagOpen
  | endTagOpen
  | tagName
  | beforeAttrName
  | attrName
  | afterAttrName
  | beforeAttrValue
  | attrValueDouble
  | attrValueSingle
  | attrValueUnquoted
  | afterAttrValueQuoted
  | selfClosingStartTag
  | unsupported
deriving DecidableEq, Repr

/-- What the tokenizer hands to the tree builder. -/
inductive Token where
  | char (c : Char)
  | startTag (name : List Char) (attrs : List (List Char × List Char))
  | endTag (name : List Char)
deriving DecidableEq, Repr

/-- The tokenizer between two characters: its state and the tag token under
construction (`cur` is the attribute being read). -/
structure Tokenizer where
  mode : Mode
  closing : Bool
  tagName : List Char
  attrs : List (List Char × List Char)
  cur : Option (List Char × List Char)
deriving DecidableEq, Repr

/-- The tokenizer in the data state, with no tag under construction. -/
def Tokenizer.init : Tokenizer := ⟨.data, false, [], [], none⟩

/-- The tokenizer outside the modelled part of the language. -/
def Tokenizer.stuck : Tokenizer := ⟨.unsupported, false, [], [], none⟩

/-- The elements whose start tag inserts exactly one element in the body and
whose content is read as ordinary markup. -/
def supportedTags : List (List Char) :=
  ["div".data, "h5".data, "p".data, "button".data, "span".data]

/-- The whitespace of the tokenizer: tab, line feed, form feed, space. -/
def isTagSpace (c : Char) : Bool :=
  c = '\t' || c = '\n' || c = Char.ofNat 12 || c = ' '

/-- The attributes of the tag once the one being read is complete: an attribute
whose name the tag already has is dropped. -/
def Tokenizer.commit (t : Tokenizer) : List (List Char × List Char) :=
  match t.cur with
  | none => t.attrs
  | some (n, v) => if n ∈ t.attrs.map Prod.fst then t.attrs else t.attrs ++ [(n, v)]

/-- A new attribute starts with the character `c` in its name. -/
def Tokenizer.startAttr (t : Tokenizer) (c : Char) : Tokenizer :=
  { t with mode := .attrName, attrs := t.commit, cur := some ([c.toLower], []) }

/-- The character `c` joins the name of the attribute being read. -/
def Tokenizer.pushName (t : Tokenizer) (c : Char) : Tokenizer :=
  match t.cur with
  | none => t
  | some (n, v) => { t with cur := some (n ++ [c.toLower], v) }

/-- The character `c` joins the value of the attribute being read. -/
def Tokenizer.pushValue (t : Tokenizer) (c : Char) : Tokenizer :=
  match t.cur with
  | none => t
  | some (n, v) => { t with cur := some (n, v ++ [c]) }

/-- The tag token is emitted and the tokenizer returns to the data state. -/
def Tokenizer.emitTag (t : Tokenizer) : Tokenizer × List Token :=
  if t.tagName ∈ supportedTags then
    (Tokenizer.init,
      [if t.closing then Token.endTag t.tagName else Token.startTag t.tagName t.commit])
  else (Tokenizer.stuck, [])

/-- The before-attribute-name state, also reached by reconsuming a character. -/
def Tokenizer.beforeAttrName (t : Tokenizer) (c : Char) : Tokenizer × List Token :=
  if isTagSpace c then ({ t with mode := .beforeAttrName }, [])
  else if c = '/' then ({ t with mode := .selfClosingStartTag }, [])
  else if c = '>' then t.emitTag
  else (t.startAttr c, [])

/-- One character is consumed. -/
def Tokenizer.step (t : Tokenizer) (c : Char) : Tokenizer × List Token :=
  if c = Char.ofNat 0 || c = '\r' then (Tokenizer.stuck, [])
  else match t.mode with
  | .unsupported => (Tokenizer.stuck, [])
  | .data =>
    if c = '<' then ({ t with mode := .tagOpen }, [])
    else if c = '&' then (Tokenizer.stuck, [])
    else (t, [.char c])
  | .tagOpen =>
    if c = '/' then ({ t with mode := .endTagOpen }, [])
    else if c.isAlpha then
      (⟨.tagName, false, [c.toLower], [], none⟩, [])
    else if c = '!' || c = '?' then (Tokenizer.stuck, [])
    else if c = '<' then ({ t with mode := .tagOpen }, [.char '<'])
    else if c = '&' then (Tokenizer.stuck, [])
    else ({ t with mode := .data }, [.char '<', .char c])
  | .endTagOpen =>
    if c.isAlpha then (⟨.tagName, true, [c.toLower], [], none⟩, [])
    else if c = '>' then (Tokenizer.init, [])
    else (Tokenizer.stuck, [])
  | .tagName =>
    if isTagSpace c then ({ t with mode := .beforeAttrName }, [])
    else if c = '/' then ({ t with mode := .selfClosingStartTag }, [])
    else if c = '>' then t.emitTag
    else ({ t with tagName := t.tagName ++ [c.toLower] }, [])
  | .beforeAttrName => t.beforeAttrName c
  | .attrName =>
    if isTagSpace c then ({ t with mode := .afterAttrName }, [])
    else if c = '/' then ({ t with mode := .selfClosingStartTag }, [])
    else if c = '>' then t.emitTag
    else if c = '=' then ({ t with mode := .beforeAttrValue }, [])
    else (t.pushName c, [])
  | .afterAttrName =>
    if isTagSpace c then (t, [])
    else if c = '/' then ({ t with mode := .selfClosingStartTag }, [])
    else if c = '=' then ({ t with mode := .beforeAttrValue }, [])
    else if c = '>' then t.emitTag
    else (t.startAttr c, [])
  | .beforeAttrValue =>
    if isTagSpace c then (t, [])
    else if c = Char.ofNat 34 then ({ t with mode := .attrValueDouble }, [])
    else if c = Char.ofNat 39 then ({ t with mode := .attrValueSingle }, [])
    else if c = '>' then t.emitTag
    else if c = '&' then (Tokenizer.stuck, [])
    else ({ t.pushValue c with mode := .attrValueUnquoted }, [])
  | .attrValueDouble =>
    if c = Char.ofNat 34 then ({ t with mode := .afterAttrValueQuoted }, [])
    else if c = '&' then (Tokenizer.stuck, [])
    else (t.pushValue c, [])
  | .attrValueSingle =>
    if c = Char.ofNat 39 then ({ t with mode := .afterAttrValueQuoted }, [])
    else if c = '&' then (Tokenizer.stuck, [])
    else (t.pushValue c, [])
  | .attrValueUnquoted =>
    if isTagSpace c then ({ t with mode := .beforeAttrName }, [])
    else if c = '&' then (Tokenizer.stuck, [])
    else if c = '>' then t.emitTag
    else (t.pushValue c, [])
  | .afterAttrValueQuoted => t.beforeAttrName c
  | .selfClosingStartTag => t.beforeAttrName c

/-- The tokens of a run of characters, and the tokenizer after it. -/
def Tokenizer.run (t : Tokenizer) : List Char → Tokenizer × List Token
  | [] => (t, [])
  | c :: rest =>
    let r := t.step c
    let q := r.1.run rest
    (q.1, r.2 ++ q.2)

/-- The end of the input: an unfinished tag is dropped, a lone `<` or `</` is
character data; `none` when the input left the modelled part of the language. -/
def Tokenizer.finish (t : Tokenizer) : Option (List Token) :=
  match t.mode with
  | .unsupported => none
  | .tagOpen => some [.char '<']
  | .endTagOpen => some [.char '<', .char '/']
  | _ => some []

/-- The tokens of a piece of markup. -/
def tokenize (markup : String) : Option (List Token) :=
  let r := Tokenizer.init.run markup.data
  r.1.finish.map (r.2 ++ ·)

/-- The character data among the tokens: the text content of the fragment. -/
def textOf : List Token → List Char
  | [] => []
  | .char c :: rest => c :: textOf rest
  | _ :: rest => textOf rest

/-- The elements the start tags among the tokens insert, in document order. -/
def elementsOf : List Token → List Target
  | [] => []
  | .startTag name attrs :: rest =>
    ⟨String.mk name, attrs.map (fun a => (String.mk a.1, String.mk a.2))⟩ :: elementsOf rest
  | _ :: rest => elementsOf rest

/-- The text content of an element whose `innerHTML` was assigned `markup`. -/
def textContent (markup : String) : Option String :=
  (tokenize markup).map (fun ts => String.mk (textOf ts))

/-- The identifier the remote store assigns: a number or a string. -/
inductive TeamId where
  | num (n : Int)
  | str (s : String)
deriving DecidableEq, Repr

/-- The identifier as a JavaScript value. -/
def TeamId.toJS : TeamId → JSValue
  | .num n => .num n
  | .str s => .str s

/-- The identifier as text, as `ToString` renders it. -/
def TeamId.text : TeamId → String
  | .num n => toString n
  | .str s => s

/-- The entity `Team`. -/
structure Team where
  id : TeamId
  name : String
  conference : String
  division : String
  city : String
deriving DecidableEq, Repr

/-- A team as the object the remote store returns. -/
def Team.toJS (t : Team) : JSValue :=
  .obj [("id", t.id.toJS), ("name", .str t.name), ("conference", .str t.conference),
    ("division", .str t.division), ("city", .str t.city)]

/-- The value is an object whose five properties read as the fields of the team;
the order of the properties and any other property do not matter. -/
def Team.Encodes (t : Team) (v : JSValue) : Prop :=
  ∃ props, v = .obj props ∧ lookupProp "id" props = t.id.toJS
    ∧ lookupProp "name" props = .str t.name
    ∧ lookupProp "conference" props = .str t.conference
    ∧ lookupProp "division" props = .str t.division
    ∧ lookupProp "city" props = .str t.city

/-- The row `displayTeams` appends for a team. -/
def Team.row (t : Team) : Element :=
  ⟨"div", rowClassName, rowMarkup t.name t.conference t.division t.city t.id.text⟩

/-- The row the callback of `displayTeams` builds for an array element, or the
error it throws before appending anything. -/
def rowOf (team : JSValue) : Except JSError Element :=
  match fieldText team .name with
  | .error e => .error e
  | .ok name =>
    match fieldText team .conference with
    | .error e => .error e
    | .ok conference =>
      match fieldText team .division with
      | .error e => .error e
      | .ok division =>
        match fieldText team .city with
        | .error e => .error e
        | .ok city =>
          match fieldText team .id with
          | .error e => .error e
          | .ok id => .ok ⟨"div", rowClassName, rowMarkup name conference division city id⟩

/-- The rows appended for the elements of an array up to the first one that
throws, and that error if there is one. -/
def rowsOf : List JSValue → List Element × Option JSError
  | [] => ([], none)
  | item :: rest =>
    match rowOf item with
    | .error e => ([], some e)
    | .ok el => (el :: (rowsOf rest).1, (rowsOf rest).2)

/-- The children of the list container after `displayTeams(teams)`, and the
error thrown if there is one. -/
def rendered : JSValue → List Element × Option JSError
  | .arr items => rowsOf items
  | .undefined => ([], some ⟨"TypeError", "Cannot read properties of undefined"⟩)
  | .null => ([], some ⟨"TypeError", "Cannot read properties of null"⟩)
  | _ => ([], some ⟨"TypeError", "teams.forEach is not a function"⟩)

/-- A completion from an optional error. -/
def completion : Option JSError → Except JSError Unit
  | none => .ok ()
  | some e => .error e

/-- A character that is character data wherever it stands in text. -/
def isTextChar (c : Char) : Bool :=
  !(c = '<' || c = '&' || c = Char.ofNat 0 || c = '\r')

/-- A character that stays inside a double-quoted attribute value. -/
def isValueChar (c : Char) : Bool :=
  !(c = Char.ofNat 34 || c = '&' || c = Char.ofNat 0 || c = '\r')

/-- The team has no markup character in its four displayed fields and none that
ends or escapes the attribute value in its identifier. -/
def Team.Plain (t : Team) : Prop :=
  t.name.data.all isTextChar = true ∧ t.conference.data.all isTextChar = true ∧
  t.division.data.all isTextChar = true ∧ t.city.data.all isTextChar = true ∧
  t.id.text.data.all isValueChar = true

/-- The template literal up to the first substitution. -/
def rowOpen : String := "\n            <div>\n                <h5 class=\"team-name\">"

/-- The template literal between the name and the conference. -/
def rowAfterName : String :=
  "</h5>\n                <p class=\"team-info mb-0\">\n                    "

/-- The template literal between the city and the identifier. -/
def rowAfterCity : String :=
  "\n                </p>\n            </div>\n            <button class=\"btn btn-danger btn-sm delete-btn\" data-id=\""

/-- The template literal after the closing of the start tag of the button. -/
def rowClose : String := "\n                Delete\n            </button>\n        "

/-- The text content of a row whose substitutions are plain text. -/
def rowText (name conference division city : String) : String :=
  "\n            \n                " ++ name ++ "\n                \n                    "
    ++ conference ++ " " ++ division ++ " | " ++ city
    ++ "\n                \n            \n            "
    ++ "\n                Delete\n            \n        "

/-- The delete button of a row, as the element a click lands on. -/
def deleteButton (idText : String) : Target :=
  ⟨"button", [("class", "btn btn-danger btn-sm delete-btn"), ("data-id", idText)]⟩

/-- The tokenizer inside the value of `data-id` of the button, `v` read so far. -/
def inDataId (v : List Char) : Tokenizer :=
  ⟨.attrValueDouble, false, "button".data,
    [("class".data, "btn btn-danger btn-sm delete-btn".data)], some ("data-id".data, v)⟩

/-- The text of the element, as the browser reads its markup back, contains `s`. -/
def Shows (el : Element) (s : String) : Prop :=
  ∃ txt, textContent el.innerHTML = some txt ∧ s.data <:+: txt.data

/-- The delete request for an identifier given as text. -/
def deleteRequest (idText : String) : Request :=
  ⟨"DELETE", API_URL ++ "/" ++ idText, [], none⟩

/-- The events appended to the trace of `w` by the time it became `w1`. -/
def newEvents (w w1 : World) : List Event := w1.trace.drop w.trace.length

/-- Whether an event is a request with the given method. -/
def Event.isRequest (method : String) : Event → Bool
  | .request r => r.method = method
  | _ => false

/-- What makes a run of `fetchTeams` fail, if anything: the rejection of the
fetch, the error of decoding the body, or the error thrown while rendering. -/
def listFailure : FetchOutcome → Option JSError
  | .rejects e => some e
  | .responds ⟨_, .error e⟩ => some e
  | .responds ⟨_, .ok v⟩ => (rendered v).2

/-- What makes a run of `createTeam` fail, if anything. -/
def createFailure : FetchOutcome → Option JSError
  | .rejects e => some e
  | .responds ⟨_, .error e⟩ => some e
  | .responds ⟨_, .ok _⟩ => none

/-- What makes a run of `deleteTeam` fail, if anything: the identifier has no
text, or the fetch rejects. -/
def deleteFailure (id : JSValue) (outcome : FetchOutcome) : Option JSError :=
  match id.toStr with
  | .error e => some e
  | .ok _ =>
    match outcome with
    | .rejects e => some e
    | .responds _ => none

/-! ## Sample inputs -/

/-- A page with an empty list, an empty form and nothing logged. -/
def emptyPage : World := ⟨[], ⟨"", "", "", ""⟩, ⟨"", "", "", ""⟩, [], []⟩

/-- A page whose list shows one row left by an earlier render. -/
def stalePage : World :=
  { emptyPage with
    teamList := [⟨"div", rowClassName, rowMarkup "Bills" "AFC" "East" "Buffalo" "3"⟩] }

/-- A page whose form holds the four values of a team about to be created. -/
def filledPage : World := { emptyPage with inputs := ⟨"Jets", "AFC", "East", "New York"⟩ }

/-- The team of the rendering scenario. -/
def patriots : Team := ⟨.num 1, "Patriots", "AFC", "East", "Foxborough"⟩

/-- The team of the rendering scenario as a store may return it: the identifier
last, and a property the script does not read. -/
def patriotsStored : JSValue :=
  .obj [("name", .str "Patriots"), ("conference", .str "AFC"), ("division", .str "East"),
    ("city", .str "Foxborough"), ("founded", .num 1959), ("id", .num 1)]

/-- A team whose name is written with markup. -/
def markupTeam : Team := ⟨.num 2, "<span>Jets</span>", "AFC", "East", "New York"⟩

/-- A response whose body is not JSON. -/
def notJson : FetchOutcome := .responds ⟨201, .error ⟨"SyntaxError", "Unexpected token"⟩⟩

/-! ## How the computations unfold -/

theorem run_bind {α β : Type} (x : JS α) (f : α → JS β) (w : World) :
    (x >>= f) w = match x w with
      | (.ok a, w1) => f a w1
      | (.error e, w1) => (.error e, w1) := rfl

theorem renderTeam_eq (team : JSValue) (w : World) :
    renderTeam team w = match rowOf team with
      | .ok el => (.ok (), { w with teamList := w.teamList ++ [el] })
      | .error e => (.error e, w) := by
  simp only [renderTeam, run_bind, substitute, JS.ofExcept, rowOf]
  cases fieldText team .name with
  | error e => rfl
  | ok a =>
    cases fieldText team .conference with
    | error e => rfl
    | ok b =>
      cases fieldText team .division with
      | error e => rfl
      | ok c =>
        cases fieldText team .city with
        | error e => rfl
        | ok d =>
          cases fieldText team .id with
          | error e => rfl
          | ok i => rfl

theorem forEachItem_eq (items : List JSValue) (w : World) :
    forEachItem renderTeam items w =
      (completion (rowsOf items).2, { w with teamList := w.teamList ++ (rowsOf items).1 }) := by
  induction items generalizing w with
  | nil => simp [forEachItem, pure, JS.pure, rowsOf, completion]
  | cons item rest ih =>
    simp only [forEachItem, run_bind, rowsOf]
    rw [renderTeam_eq]
    cases rowOf item with
    | error e => simp [completion]
    | ok el => simp [ih]

theorem displayTeams_eq (teams : JSValue) (w : World) :
    displayTeams teams w =
      (completion (rendered teams).2, { w with teamList := (rendered teams).1 }) := by
  cases teams <;> simp [displayTeams, run_bind, clearTeamList, forEach, forEachItem_eq, rendered,
      completion, throw, throwThe, MonadExceptOf.throw, JS.throw]

theorem rowOf_team (t : Team) : rowOf t.toJS = .ok t.row := by
  cases t with
  | mk id name conference division city =>
    cases id <;> rfl

theorem rowsOf_teams (teams : List Team) :
    rowsOf (teams.map Team.toJS) = (teams.map Team.row, none) := by
  induction teams with
  | nil => rfl
  | cons t rest ih => simp [rowsOf, rowOf_team, ih]

theorem encodes_toJS (t : Team) : t.Encodes t.toJS :=
  ⟨_, rfl, rfl, rfl, rfl, rfl, rfl⟩

theorem toStr_id (id : TeamId) : id.toJS.toStr = .ok id.text := by
  cases id <;> rfl

theorem rowOf_encodes (t : Team) (v : JSValue) (h : t.Encodes v) : rowOf v = .ok t.row := by
  obtain ⟨props, rfl, hid, hn, hc, hd, hci⟩ := h
  simp only [rowOf, fieldText, JSValue.get, Field.key, hid, hn, hc, hd, hci, toStr_id,
    JSValue.toStr, Team.row]

theorem rowsOf_encodes (items : List JSValue) (teams : List Team)
    (h : List.Forall₂ (fun v t => t.Encodes v) items teams) :
    rowsOf items = (teams.map Team.row, none) := by
  induction h with
  | nil => rfl
  | cons hx _ ih => simp [rowsOf, rowOf_encodes _ _ hx, ih]

theorem fetchTeams_eq (outcome : FetchOutcome) (w : World) :
    fetchTeams outcome w =
      match outcome with
      | .rejects e => (.ok (), { w with
          trace := w.trace ++ [.request listRequest, .consoleError "Error fetching teams:" e] })
      | .responds ⟨_, .error e⟩ => (.ok (), { w with
          trace := w.trace ++ [.request listRequest, .consoleError "Error fetching teams:" e] })
      | .responds ⟨_, .ok v⟩ =>
        match (rendered v).2 with
        | none => (.ok (), { w with
            teamList := (rendered v).1, trace := w.trace ++ [.request listRequest] })
        | some e => (.ok (), { w with
            teamList := (rendered v).1,
            trace := w.trace ++ [.request listRequest,
              .consoleError "Error fetching teams:" e] }) := by
  rcases outcome with e | ⟨status, body⟩
  · simp [fetchTeams, tryCatch, tryCatchThe, MonadExcept.tryCatch, MonadExceptOf.tryCatch,
      JS.tryCatch, run_bind, awaitFetch, emit,
      throw, throwThe, MonadExceptOf.throw, JS.throw, consoleError]
  · cases body with
    | error e =>
      simp [fetchTeams, tryCatch, tryCatchThe, MonadExcept.tryCatch, MonadExceptOf.tryCatch,
          JS.tryCatch, run_bind, awaitFetch, emit,
        pure, JS.pure, awaitJson, JS.ofExcept, consoleError]
    | ok v =>
      simp only [fetchTeams, tryCatch, tryCatchThe, MonadExcept.tryCatch, MonadExceptOf.tryCatch,
          JS.tryCatch, run_bind, awaitFetch, emit,
        pure, JS.pure, awaitJson, JS.ofExcept, consoleError, displayTeams_eq]
      cases (rendered v).2 <;> simp [completion]

theorem fetchTeamsResume_eq (outcome : FetchOutcome) (w : World) :
    fetchTeamsResume outcome w =
      match outcome with
      | .rejects e => (.ok (), { w with
          trace := w.trace ++ [.consoleError "Error fetching teams:" e] })
      | .responds ⟨_, .error e⟩ => (.ok (), { w with
          trace := w.trace ++ [.consoleError "Error fetching teams:" e] })
      | .responds ⟨_, .ok v⟩ =>
        match (rendered v).2 with
        | none => (.ok (), { w with teamList := (rendered v).1 })
        | some e => (.ok (), { w with
            teamList := (rendered v).1,
            trace := w.trace ++ [.consoleError "Error fetching teams:" e] }) := by
  rcases outcome with e | ⟨status, body⟩
  · simp [fetchTeamsResume, tryCatch, tryCatchThe, MonadExcept.tryCatch, MonadExceptOf.tryCatch,
      JS.tryCatch, run_bind, emit,
      JS.ofExcept, consoleError]
  · cases body with
    | error e =>
      simp [fetchTeamsResume, tryCatch, tryCatchThe, MonadExcept.tryCatch,
          MonadExceptOf.tryCatch, JS.tryCatch, run_bind, emit,
        awaitJson, JS.ofExcept, consoleError]
    | ok v =>
      simp only [fetchTeamsResume, tryCatch, tryCatchThe, MonadExcept.tryCatch,
          MonadExceptOf.tryCatch, JS.tryCatch, run_bind, emit,
        awaitJson, JS.ofExcept, consoleError, displayTeams_eq]
      cases (rendered v).2 <;> simp [completion]

/-- An un-awaited call followed by the answer to its request is the function run
from call to settlement, when no other call is suspended. -/
theorem fetchTeamsCall_deliver (outcome : FetchOutcome) (w : World) (h : w.suspended = []) :
    deliver outcome (fetchTeamsCall w).2 = fetchTeams outcome w := by
  have hc : (fetchTeamsCall w).2 = { w with
      trace := w.trace ++ [.request listRequest], suspended := [.fetchTeams] } := by
    simp [fetchTeamsCall, run_bind, emit, h]
  rw [hc]
  simp only [deliver]
  rw [fetchTeamsResume_eq, fetchTeams_eq]
  rcases outcome with e | ⟨status, body⟩
  · simp [h]
  · cases body with
    | error e => simp [h]
    | ok v => cases (rendered v).2 <;> simp [h]

theorem createTeam_eq (team : JSValue) (outcome : FetchOutcome) (w : World) :
    createTeam team outcome w =
      match outcome with
      | .rejects e => (.ok .undefined, { w with
          trace := w.trace ++ [.request (createRequest team),
            .consoleError "Error creating team:" e] })
      | .responds ⟨_, .error e⟩ => (.ok .undefined, { w with
          trace := w.trace ++ [.request (createRequest team),
            .consoleError "Error creating team:" e] })
      | .responds ⟨_, .ok v⟩ => (.ok v, { w with
          trace := w.trace ++ [.request (createRequest team), .request listRequest],
          suspended := w.suspended ++ [.fetchTeams] }) := by
  rcases outcome with e | ⟨status, body⟩
  · simp [createTeam, tryCatch, tryCatchThe, MonadExcept.tryCatch, MonadExceptOf.tryCatch,
      JS.tryCatch, run_bind, awaitFetch, emit, throw, throwThe, MonadExceptOf.throw, JS.throw,
      consoleError, pure, JS.pure]
  · cases body with
    | error e =>
      simp [createTeam, tryCatch, tryCatchThe, MonadExcept.tryCatch, MonadExceptOf.tryCatch,
        JS.tryCatch, run_bind, awaitFetch, emit, pure, JS.pure, awaitJson, JS.ofExcept,
        consoleError]
    | ok v =>
      simp [createTeam, tryCatch, tryCatchThe, MonadExcept.tryCatch, MonadExceptOf.tryCatch,
        JS.tryCatch, run_bind, awaitFetch, emit, pure, JS.pure, awaitJson, JS.ofExcept,
        fetchTeamsCall]

theorem deleteTeam_eq (id : JSValue) (outcome : FetchOutcome) (w : World) :
    deleteTeam id outcome w =
      match id.toStr with
      | .error e => (.ok (), { w with
          trace := w.trace ++ [.consoleError "Error deleting team:" e] })
      | .ok idText =>
        match outcome with
        | .rejects e => (.ok (), { w with
            trace := w.trace ++ [.request (deleteRequest idText),
              .consoleError "Error deleting team:" e] })
        | .responds _ => (.ok (), { w with
            trace := w.trace ++ [.request (deleteRequest idText), .request listRequest],
            suspended := w.suspended ++ [.fetchTeams] }) := by
  cases h : id.toStr with
  | error e =>
    simp [deleteTeam, tryCatch, tryCatchThe, MonadExcept.tryCatch, MonadExceptOf.tryCatch,
      JS.tryCatch, run_bind, JS.ofExcept, h, consoleError, emit]
  | ok idText =>
    rcases outcome with e | r
    · simp [deleteTeam, tryCatch, tryCatchThe, MonadExcept.tryCatch, MonadExceptOf.tryCatch,
        JS.tryCatch, run_bind, JS.ofExcept, h, consoleError, emit, awaitFetch, throw, throwThe,
        MonadExceptOf.throw, JS.throw, deleteRequest]
    · simp [deleteTeam, tryCatch, tryCatchThe, MonadExcept.tryCatch, MonadExceptOf.tryCatch,
        JS.tryCatch, run_bind, JS.ofExcept, h, emit, awaitFetch, pure, JS.pure,
        fetchTeamsCall, deleteRequest]

theorem onSubmit_eq (outcome : FetchOutcome) (w : World) :
    onSubmit outcome w =
      (.ok (), { (createTeam (newTeamOf w.inputs) outcome
          { w with trace := w.trace ++ [.preventDefault] }).2 with
        inputs := w.defaults,
        trace := (createTeam (newTeamOf w.inputs) outcome
          { w with trace := w.trace ++ [.preventDefault] }).2.trace ++ [.formReset] }) := by
  simp only [onSubmit, run_bind, emit, readInputs]
  rw [createTeam_eq]
  rcases outcome with e | ⟨status, body⟩
  · simp [resetForm]
  · cases body <;> simp [resetForm]

theorem newEvents_append (w w1 : World) (evs : List Event) (h : w1.trace = w.trace ++ evs) :
    newEvents w w1 = evs := by
  simp [newEvents, h]

/-! ## Quoting and reading back -/

theorem hexValue_hexDigit (k : Nat) (h : k < 16) : hexValue (hexDigit k) = some k := by
  interval_cases k <;> decide

theorem readJSONChars_letter (e ch : Char) (rest : List Char) (he : e ≠ 'u')
    (hu : unescapeJSONChar e = some ch) :
    readJSONChars .plain (Char.ofNat 92 :: e :: rest)
      = (readJSONChars .plain rest).map (fun r => (ch :: r.1, r.2)) := by
  have hq : ¬ (Char.ofNat 92 = Char.ofNat 34) := by decide
  simp only [readJSONChars, hq, if_false, if_true, he, hu]

theorem readJSONChars_hex (c d : Char) (z u : Nat) (rest : List Char)
    (hc : hexValue c = some z) (hd : hexValue d = some u) :
    readJSONChars .plain (Char.ofNat 92 :: 'u' :: '0' :: '0' :: c :: d :: rest)
      = (readJSONChars .plain rest).map (fun r => (Char.ofNat (z * 16 + u) :: r.1, r.2)) := by
  have hq : ¬ (Char.ofNat 92 = Char.ofNat 34) := by decide
  have h0 : hexValue '0' = some 0 := by decide
  simp [readJSONChars, hq, h0, hc, hd]

theorem readJSONChars_plain (c : Char) (rest : List Char) (h1 : c ≠ Char.ofNat 34)
    (h2 : c ≠ Char.ofNat 92) (h3 : ¬ c.toNat < 32) :
    readJSONChars .plain (c :: rest)
      = (readJSONChars .plain rest).map (fun r => (c :: r.1, r.2)) := by
  simp only [readJSONChars, h1, h2, h3, if_false]

theorem readJSONChars_escape (c : Char) (rest : List Char) :
    readJSONChars .plain ((escapeJSONChar c).data ++ rest)
      = (readJSONChars .plain rest).map (fun r => (c :: r.1, r.2)) := by
  unfold escapeJSONChar
  split
  · next h =>
    subst h
    exact readJSONChars_letter (Char.ofNat 34) _ rest (by decide) (by decide)
  split
  · next h =>
    subst h
    exact readJSONChars_letter (Char.ofNat 92) _ rest (by decide) (by decide)
  split
  · next h => subst h; exact readJSONChars_letter 'b' _ rest (by decide) (by decide)
  split
  · next h => subst h; exact readJSONChars_letter 'f' _ rest (by decide) (by decide)
  split
  · next h => subst h; exact readJSONChars_letter 'n' _ rest (by decide) (by decide)
  split
  · next h => subst h; exact readJSONChars_letter 'r' _ rest (by decide) (by decide)
  split
  · next h => subst h; exact readJSONChars_letter 't' _ rest (by decide) (by decide)
  split
  · next h8 =>
    have h := readJSONChars_hex (hexDigit (c.toNat / 16)) (hexDigit (c.toNat % 16))
      (c.toNat / 16) (c.toNat % 16) rest
      (hexValue_hexDigit _ (by omega)) (hexValue_hexDigit _ (by omega))
    have hn : c.toNat / 16 * 16 + c.toNat % 16 = c.toNat := by omega
    rw [hn, Char.ofNat_toNat] at h
    exact h
  · next h1 h2 _ _ _ _ _ h8 =>
    exact readJSONChars_plain c rest h1 h2 h8

theorem join_cons_data (s : String) (l : List String) :
    (String.join (s :: l)).data = s.data ++ (String.join l).data := by
  have h : ∀ (l : List String) (acc : String),
      (List.foldl (fun r s => r ++ s) acc l).data
        = acc.data ++ (List.foldl (fun r s => r ++ s) "" l).data := by
    intro l
    induction l with
    | nil => intro acc; simp
    | cons x tl ih =>
      intro acc
      simp only [List.foldl_cons]
      rw [ih (acc ++ x), ih ("" ++ x)]
      simp [String.data_append, List.append_assoc]
  simp only [String.join, List.foldl_cons]
  rw [h l ("" ++ s)]
  simp [String.data_append]

theorem readJSONChars_quote (cs rest : List Char) :
    readJSONChars .plain
        ((String.join (cs.map escapeJSONChar)).data ++ Char.ofNat 34 :: rest)
      = some (cs, rest) := by
  induction cs with
  | nil => simp [String.join, readJSONChars]
  | cons c tl ih =>
    rw [List.map_cons, join_cons_data, List.append_assoc, readJSONChars_escape, ih]
    rfl

/-- The quoted form of a string reads back as that string. -/
theorem readJSONString_quote (s : String) (rest : List Char) :
    readJSONString ((quoteJSONString s).data ++ rest) = some (s.data, rest) := by
  have h := readJSONChars_quote s.data rest
  have hq : ("\"" : String).data = [Char.ofNat 34] := by decide
  simp only [quoteJSONString, String.data_append, List.append_assoc, hq, List.singleton_append,
    readJSONString, if_true, String.toList]
  exact h

theorem readMember_quote (k v : String) (rest : List Char) :
    readMember ((quoteJSONString k).data ++ (':' :: ((quoteJSONString v).data ++ rest)))
      = some ((k.data, v.data), rest) := by
  simp only [readMember, readJSONString_quote, if_true]

theorem readMembers_more (fuel : Nat) (k v : String) (rest : List Char) :
    readMembers (fuel + 1)
        ((quoteJSONString k).data ++ (':' :: ((quoteJSONString v).data ++ (',' :: rest))))
      = (readMembers fuel rest).map ((k.data, v.data) :: ·) := by
  have h : ¬ (',' = Char.ofNat 125) := by decide
  simp only [readMembers, readMember_quote, h, false_and, if_false, if_true]

theorem readMembers_last (fuel : Nat) (k v : String) :
    readMembers (fuel + 1)
        ((quoteJSONString k).data ++ (':' :: ((quoteJSONString v).data ++ [Char.ofNat 125])))
      = some [(k.data, v.data)] := by
  simp only [readMembers, readMember_quote, and_self, if_true]

/-- The JSON text of the object the submit listener builds reads back as its
four members. -/
theorem readObject_newTeamOf (v : FormValues) :
    readObject ("\x7b\"name\":" ++ quoteJSONString v.name
        ++ ",\"conference\":" ++ quoteJSONString v.conference
        ++ ",\"division\":" ++ quoteJSONString v.division
        ++ ",\"city\":" ++ quoteJSONString v.city ++ "\x7d")
      = some [("name", v.name), ("conference", v.conference), ("division", v.division),
          ("city", v.city)] := by
  have q1 : (quoteJSONString "name").data
      = [Char.ofNat 34, 'n', 'a', 'm', 'e', Char.ofNat 34] := by decide
  have q2 : (quoteJSONString "conference").data
      = [Char.ofNat 34, 'c', 'o', 'n', 'f', 'e', 'r', 'e', 'n', 'c', 'e', Char.ofNat 34] := by
    decide
  have q3 : (quoteJSONString "division").data
      = [Char.ofNat 34, 'd', 'i', 'v', 'i', 's', 'i', 'o', 'n', Char.ofNat 34] := by decide
  have q4 : (quoteJSONString "city").data
      = [Char.ofNat 34, 'c', 'i', 't', 'y', Char.ofNat 34] := by decide
  have hd : ("\x7b\"name\":" ++ quoteJSONString v.name
        ++ ",\"conference\":" ++ quoteJSONString v.conference
        ++ ",\"division\":" ++ quoteJSONString v.division
        ++ ",\"city\":" ++ quoteJSONString v.city ++ "\x7d").data
      = Char.ofNat 123 :: ((quoteJSONString "name").data ++ (':' :: ((quoteJSONString v.name).data
        ++ (',' :: ((quoteJSONString "conference").data
        ++ (':' :: ((quoteJSONString v.conference).data
        ++ (',' :: ((quoteJSONString "division").data
        ++ (':' :: ((quoteJSONString v.division).data
        ++ (',' :: ((quoteJSONString "city").data
        ++ (':' :: ((quoteJSONString v.city).data ++ [Char.ofNat 125]))))))))))))))) := by
    simp only [String.data_append, q1, q2, q3, q4, List.append_assoc, List.cons_append,
      List.nil_append]
  unfold readObject
  rw [hd]
  simp only [if_true]
  have hlen : 4 ≤ (Char.ofNat 123 :: ((quoteJSONString "name").data
        ++ (':' :: ((quoteJSONString v.name).data
        ++ (',' :: ((quoteJSONString "conference").data
        ++ (':' :: ((quoteJSONString v.conference).data
        ++ (',' :: ((quoteJSONString "division").data
        ++ (':' :: ((quoteJSONString v.division).data
        ++ (',' :: ((quoteJSONString "city").data
        ++ (':' :: ((quoteJSONString v.city).data
        ++ [Char.ofNat 125])))))))))))))))).length := by
    simp only [List.length_cons, List.length_append, List.length_nil]
    omega
  obtain ⟨n, hn⟩ := Nat.exists_eq_add_of_le' hlen
  rw [hn, readMembers_more, readMembers_more, readMembers_more, readMembers_last]
  rfl

/-! ## The tokenizer on a row -/

theorem run_append (t : Tokenizer) (a b : List Char) :
    t.run (a ++ b) = (((t.run a).1.run b).1, (t.run a).2 ++ ((t.run a).1.run b).2) := by
  induction a generalizing t with
  | nil => simp [Tokenizer.run]
  | cons c rest ih => simp [Tokenizer.run, ih, List.append_assoc]

theorem run_text (cs : List Char) (h : cs.all isTextChar = true) :
    Tokenizer.init.run cs = (Tokenizer.init, cs.map Token.char) := by
  induction cs with
  | nil => rfl
  | cons c rest ih =>
    simp only [List.all_cons, Bool.and_eq_true] at h
    have hc := h.1
    simp only [isTextChar, Bool.not_eq_true', Bool.or_eq_false_iff, decide_eq_false_iff_not]
      at hc
    obtain ⟨⟨⟨h1, h2⟩, h3⟩, h4⟩ := hc
    have hs : Tokenizer.init.step c = (Tokenizer.init, [Token.char c]) := by
      simp [Tokenizer.step, Tokenizer.init, h1, h2, h3, h4]
    simp [Tokenizer.run, hs, ih h.2]

theorem run_value (cs v : List Char) (h : cs.all isValueChar = true) :
    (inDataId v).run cs = (inDataId (v ++ cs), []) := by
  induction cs generalizing v with
  | nil => simp [Tokenizer.run]
  | cons c rest ih =>
    simp only [List.all_cons, Bool.and_eq_true] at h
    have hc := h.1
    simp only [isValueChar, Bool.not_eq_true', Bool.or_eq_false_iff, decide_eq_false_iff_not]
      at hc
    obtain ⟨⟨⟨h1, h2⟩, h3⟩, h4⟩ := hc
    have hs : (inDataId v).step c = (inDataId (v ++ [c]), []) := by
      simp [Tokenizer.step, inDataId, h1, h2, h3, h4, Tokenizer.pushValue]
    simp [Tokenizer.run, hs, ih (v ++ [c]) h.2, List.append_assoc]

theorem textOf_append (a b : List Token) : textOf (a ++ b) = textOf a ++ textOf b := by
  induction a with
  | nil => rfl
  | cons x rest ih => cases x <;> simp [textOf, ih]

theorem textOf_chars (cs : List Char) : textOf (cs.map Token.char) = cs := by
  induction cs with
  | nil => rfl
  | cons c rest ih => simp [textOf, ih]

theorem elementsOf_append (a b : List Token) :
    elementsOf (a ++ b) = elementsOf a ++ elementsOf b := by
  induction a with
  | nil => rfl
  | cons x rest ih => cases x <;> simp [elementsOf, ih]

theorem elementsOf_chars (cs : List Char) : elementsOf (cs.map Token.char) = [] := by
  induction cs with
  | nil => rfl
  | cons c rest ih => simp [elementsOf, ih]

set_option maxRecDepth 100000 in
theorem run_rowOpen :
    (Tokenizer.init.run rowOpen.data).1 = Tokenizer.init
    ∧ textOf (Tokenizer.init.run rowOpen.data).2 = "\n            \n                ".data
    ∧ elementsOf (Tokenizer.init.run rowOpen.data).2
        = [⟨"div", []⟩, ⟨"h5", [("class", "team-name")]⟩] := by
  decide

set_option maxRecDepth 100000 in
theorem run_rowAfterName :
    (Tokenizer.init.run rowAfterName.data).1 = Tokenizer.init
    ∧ textOf (Tokenizer.init.run rowAfterName.data).2
        = "\n                \n                    ".data
    ∧ elementsOf (Tokenizer.init.run rowAfterName.data).2
        = [⟨"p", [("class", "team-info mb-0")]⟩] := by
  decide

set_option maxRecDepth 100000 in
theorem run_rowAfterCity :
    (Tokenizer.init.run rowAfterCity.data).1 = inDataId []
    ∧ textOf (Tokenizer.init.run rowAfterCity.data).2
        = "\n                \n            \n            ".data
    ∧ elementsOf (Tokenizer.init.run rowAfterCity.data).2 = [] := by
  decide

set_option maxRecDepth 100000 in
theorem run_rowClose :
    (Tokenizer.init.run rowClose.data).1 = Tokenizer.init
    ∧ textOf (Tokenizer.init.run rowClose.data).2
        = "\n                Delete\n            \n        ".data
    ∧ elementsOf (Tokenizer.init.run rowClose.data).2 = [] := by
  decide

theorem run_buttonTagEnd (v : List Char) :
    (inDataId v).run [Char.ofNat 34, '>']
      = (Tokenizer.init, [Token.startTag "button".data
          [("class".data, "btn btn-danger btn-sm delete-btn".data), ("data-id".data, v)]]) := by
  have h1 : "button".data ∈ supportedTags := by decide
  have h2 : ¬ ("data-id".data ∈ ["class".data]) := by decide
  have h3 : isTagSpace '>' = false := by decide
  have h4 : ¬ ('>' = Char.ofNat 0 ∨ '>' = '\r') := by decide
  have h5 : ¬ ('>' = '/') := by decide
  have hs1 : (inDataId v).step (Char.ofNat 34)
      = ({ inDataId v with mode := .afterAttrValueQuoted }, []) := by
    have h6 : ¬ (Char.ofNat 34 = Char.ofNat 0 ∨ Char.ofNat 34 = '\r') := by decide
    simp [Tokenizer.step, inDataId, h6]
  have hs2 : ({ inDataId v with mode := .afterAttrValueQuoted } : Tokenizer).step '>'
      = (Tokenizer.init, [Token.startTag "button".data
          [("class".data, "btn btn-danger btn-sm delete-btn".data), ("data-id".data, v)]]) := by
    simp [Tokenizer.step, inDataId, h3, h4, h5, Tokenizer.beforeAttrName, Tokenizer.emitTag,
      Tokenizer.commit, h1, h2]
  simp [Tokenizer.run, hs1, hs2]

theorem rowMarkup_data (n c d ci id : String) :
    (rowMarkup n c d ci id).data = rowOpen.data ++ (n.data ++ (rowAfterName.data ++ (c.data
      ++ (" ".data ++ (d.data ++ (" | ".data ++ (ci.data ++ (rowAfterCity.data ++ (id.data
      ++ ([Char.ofNat 34, '>'] ++ rowClose.data)))))))))) := by
  have h : ("\">\n                Delete\n            </button>\n        " : String).data
      = [Char.ofNat 34, '>'] ++ rowClose.data := by decide
  simp only [rowMarkup, String.data_append, h, List.append_assoc]
  rfl

theorem run_row (n c d ci id : String) (hn : n.data.all isTextChar = true)
    (hc : c.data.all isTextChar = true) (hd : d.data.all isTextChar = true)
    (hci : ci.data.all isTextChar = true) (hid : id.data.all isValueChar = true) :
    (Tokenizer.init.run (rowMarkup n c d ci id).data).1 = Tokenizer.init
    ∧ textOf (Tokenizer.init.run (rowMarkup n c d ci id).data).2 = (rowText n c d ci).data
    ∧ elementsOf (Tokenizer.init.run (rowMarkup n c d ci id).data).2
        = [⟨"div", []⟩, ⟨"h5", [("class", "team-name")]⟩, ⟨"p", [("class", "team-info mb-0")]⟩,
            deleteButton id] := by
  have hsp : Tokenizer.init.run " ".data = (Tokenizer.init, " ".data.map Token.char) :=
    run_text _ (by decide)
  have hbar : Tokenizer.init.run " | ".data = (Tokenizer.init, " | ".data.map Token.char) :=
    run_text _ (by decide)
  have hv := run_value id.data [] hid
  simp only [List.nil_append] at hv
  rw [rowMarkup_data]
  simp only [run_append, run_rowOpen.1, run_text _ hn, run_rowAfterName.1, run_text _ hc, hsp,
    run_text _ hd, hbar, run_text _ hci, run_rowAfterCity.1, hv, run_buttonTagEnd,
    run_rowClose.1, textOf_append, textOf_chars, elementsOf_append, elementsOf_chars,
    run_rowOpen.2.1, run_rowOpen.2.2, run_rowAfterName.2.1, run_rowAfterName.2.2,
    run_rowAfterCity.2.1, run_rowAfterCity.2.2, run_rowClose.2.1, run_rowClose.2.2]
  refine ⟨trivial, ?_, ?_⟩
  · simp [rowText, String.data_append, textOf, List.append_assoc]
  · simp [elementsOf, deleteButton]

/-! ## Numeric identifiers -/

theorem textContent_row (t : Team) (h : t.Plain) :
    textContent t.row.innerHTML = some (rowText t.name t.conference t.division t.city) := by
  obtain ⟨hn, hc, hd, hci, hid⟩ := h
  have hr := run_row t.name t.conference t.division t.city t.id.text hn hc hd hci hid
  have hf : Tokenizer.init.finish = some [] := rfl
  simp only [textContent, tokenize, Team.row, hr.1, hf, Option.map_some', List.append_nil,
    hr.2.1]

/-- C1, counterexample: the name of the team is `<span>Jets</span>`; its row is
rendered, the text of the row reads `Jets` where the name stands, and does not
contain the name. -/
theorem markup_name_not_shown :
    (displayTeams (.arr [markupTeam.toJS]) emptyPage).2.teamList = [markupTeam.row]
    ∧ textContent markupTeam.row.innerHTML = some (rowText "Jets" "AFC" "East" "New York")
    ∧ ¬ Shows markupTeam.row markupTeam.name := by
  have h2 : textContent markupTeam.row.innerHTML
      = some (rowText "Jets" "AFC" "East" "New York") := by
    set_option maxRecDepth 100000 in decide
  refine ⟨rfl, h2, ?_⟩
  rintro ⟨txt, ht, hin⟩
  rw [h2] at ht
  cases ht
  revert hin
  set_option maxRecDepth 100000 in decide

/-- C1, amended: for every sequence of objects that hold teams `displayTeams`
completes normally and leaves exactly the rows of the teams, one per team and in
their order; the text of the row of a team contains its name, conference,
division and city when those four and the identifier hold no markup character
(`<`, `&`, NUL, CR in the fields; double quote, `&`, NUL, CR in the identifier). -/
theorem displayTeams_rows (items : List JSValue) (teams : List Team)
    (h : List.Forall₂ (fun v t => t.Encodes v) items teams) (w : World) :
    (displayTeams (.arr items) w).1 = .ok ()
    ∧ (displayTeams (.arr items) w).2.teamList = teams.map Team.row
    ∧ (displayTeams (.arr items) w).2.teamList.length = items.length
    ∧ (∀ t ∈ teams, t.Plain →
        textContent t.row.innerHTML
            = some (rowText t.name t.conference t.division t.city)
          ∧ Shows t.row t.name ∧ Shows t.row t.conference ∧ Shows t.row t.division
          ∧ Shows t.row t.city) := by
  refine ⟨?_, ?_, ?_, ?_⟩
  · simp [displayTeams_eq, rendered, rowsOf_encodes items teams h, completion]
  · simp [displayTeams_eq, rendered, rowsOf_encodes items teams h]
  · simp [displayTeams_eq, rendered, rowsOf_encodes items teams h, h.length_eq]
  · intro t _ hp
    have ht := textContent_row t hp
    refine ⟨ht, ⟨_, ht, ?_⟩, ⟨_, ht, ?_⟩, ⟨_, ht, ?_⟩, ⟨_, ht, ?_⟩⟩
    · exact ⟨"\n            \n                ".data,
        ("\n                \n                    " ++ t.conference ++ " " ++ t.division
          ++ " | " ++ t.city ++ "\n                \n            \n            "
          ++ "\n                Delete\n            \n        ").data,
        by simp [rowText, String.data_append, List.append_assoc]⟩
    · exact ⟨("\n            \n                " ++ t.name
          ++ "\n                \n                    ").data,
        (" " ++ t.division ++ " | " ++ t.city ++ "\n                \n            \n            "
          ++ "\n                Delete\n            \n        ").data,
        by simp [rowText, String.data_append, List.append_assoc]⟩
    · exact ⟨("\n            \n                " ++ t.name
          ++ "\n                \n                    " ++ t.conference ++ " ").data,
        (" | " ++ t.city ++ "\n                \n            \n            "
          ++ "\n                Delete\n            \n        ").data,
        by simp [rowText, String.data_append, List.append_assoc]⟩
    · exact ⟨("\n            \n                " ++ t.name
          ++ "\n                \n                    " ++ t.conference ++ " " ++ t.division
          ++ " | ").data,
        ("\n                \n            \n            "
          ++ "\n                Delete\n            \n        ").data,
        by simp [rowText, String.data_append, List.append_assoc]⟩

/-- C1, witness: the Patriots of the scenario, as a store may return them, are
shown with their four values. -/
theorem displayTeams_rows_witness :
    List.Forall₂ (fun v t => t.Encodes v) [patriotsStored] [patriots]
    ∧ patriots.Plain
    ∧ (displayTeams (.arr [patriotsStored]) emptyPage).2.teamList = [patriots.row]
    ∧ Shows patriots.row "Patriots" ∧ Shows patriots.row "AFC" ∧ Shows patriots.row "East"
    ∧ Shows patriots.row "Foxborough" :=
  ⟨.cons ⟨_, rfl, rfl, rfl, rfl, rfl, rfl⟩ .nil,
    ⟨by decide, by decide, by decide, by decide, by decide⟩,
    (displayTeams_rows [patriotsStored] [patriots]
      (.cons ⟨_, rfl, rfl, rfl, rfl, rfl, rfl⟩ .nil) emptyPage).2.1,
    ((displayTeams_rows [patriotsStored] [patriots]
      (.cons ⟨_, rfl, rfl, rfl, rfl, rfl, rfl⟩ .nil) emptyPage).2.2.2 patriots (by simp)
      ⟨by decide, by decide, by decide, by decide, by decide⟩).2⟩

/-- C3, counterexample: the create request is answered with a body that is not
JSON; `createTeam` logs the error, issues no list request and suspends no call of
`fetchTeams`. -/
theorem createTeam_undecodable_skips_list :
    newEvents filledPage (createTeam (newTeamOf filledPage.inputs) notJson filledPage).2
        = [.request (createRequest (newTeamOf filledPage.inputs)),
           .consoleError "Error creating team:" ⟨"SyntaxError", "Unexpected token"⟩]
    ∧ ((newEvents filledPage
          (createTeam (newTeamOf filledPage.inputs) notJson filledPage).2).filter
            (Event.isRequest "GET")).length = 0
    ∧ (createTeam (newTeamOf filledPage.inputs) notJson filledPage).2.suspended = [] := by
  simp [createTeam_eq, notJson, newEvents, filledPage, emptyPage, Event.isRequest,
    createRequest]

/-- C3, amended: when the create request is answered and the body decodes,
whatever the status, `createTeam` issues the POST, then calls `fetchTeams` once
(one list request, one suspended call) and resolves to the decoded value; when
the body does not decode, it logs the error and calls no `fetchTeams`. -/
theorem createTeam_answered (team : JSValue) (status : Nat) (body : Except JSError JSValue)
    (w : World) :
    createTeam team (.responds ⟨status, body⟩) w =
      match body with
      | .ok v => (.ok v, { w with
          trace := w.trace ++ [.request (createRequest team), .request listRequest],
          suspended := w.suspended ++ [.fetchTeams] })
      | .error e => (.ok .undefined, { w with
          trace := w.trace ++ [.request (createRequest team),
            .consoleError "Error creating team:" e] }) := by
  rw [createTeam_eq]
  cases body <;> rfl

/-! ## List -/

/-- C5: whatever the outcome of the create request (a rejection, an undecodable
body, a decoded body), the submit listener completes normally, `teamForm.reset()`
is the last thing it does, after everything `createTeam` did, and the inputs hold
their default values, which are empty on a page whose inputs have no preset
value. -/
theorem onSubmit_resets_form (outcome : FetchOutcome) (w : World)
    (h : w.defaults = ⟨"", "", "", ""⟩) :
    (onSubmit outcome w).1 = .ok ()
    ∧ (onSubmit outcome w).2.inputs = w.defaults
    ∧ (onSubmit outcome w).2.inputs = ⟨"", "", "", ""⟩
    ∧ (onSubmit outcome w).2.trace =
        (createTeam (newTeamOf w.inputs) outcome
          { w with trace := w.trace ++ [.preventDefault] }).2.trace ++ [.formReset] := by
  rw [onSubmit_eq]
  exact ⟨rfl, rfl, h, rfl⟩

/-- C5, witness: the form holds the four values of the Jets and the create
response is not JSON; the inputs are empty afterwards. -/
theorem onSubmit_resets_form_witness :
    filledPage.defaults = ⟨"", "", "", ""⟩
    ∧ filledPage.inputs = ⟨"Jets", "AFC", "East", "New York"⟩
    ∧ (onSubmit notJson filledPage).2.inputs = ⟨"", "", "", ""⟩
    ∧ (onSubmit notJson filledPage).2.trace.getLast? = some .formReset :=
  ⟨rfl, rfl, (onSubmit_resets_form notJson filledPage rfl).2.2.1,
    by rw [(onSubmit_resets_form notJson filledPage rfl).2.2.2]; simp⟩

theorem stringify_newTeamOf (v : FormValues) :
    (newTeamOf v).stringify = some ("\x7b\"name\":" ++ quoteJSONString v.name
      ++ ",\"conference\":" ++ quoteJSONString v.conference
      ++ ",\"division\":" ++ quoteJSONString v.division
      ++ ",\"city\":" ++ quoteJSONString v.city ++ "\x7d") := by
  have h1 : quoteJSONString "name" = "\"name\"" := by decide
  have h2 : quoteJSONString "conference" = "\"conference\"" := by decide
  have h3 : quoteJSONString "division" = "\"division\"" := by decide
  have h4 : quoteJSONString "city" = "\"city\"" := by decide
  simp only [newTeamOf, JSValue.stringify, JSValue.stringifyProps, h1, h2, h3, h4,
    String.intercalate, String.intercalate.go, Option.some.injEq]
  apply String.ext
  simp [String.data_append, List.append_assoc]

/-- C6: the submit listener issues one POST to `API_URL`, as its first request,
whose body is the JSON text of the object with the four keys `name`,
`conference`, `division`, `city` bound to the four input values: the text reads
back as exactly those four members, and the object has no `id`. -/
theorem onSubmit_posts_fields (outcome : FetchOutcome) (w : World) :
    (∃ rest, newEvents w (onSubmit outcome w).2 =
        .preventDefault
        :: .request ⟨"POST", API_URL, [("Content-Type", "application/json")],
            some ("\x7b\"name\":" ++ quoteJSONString w.inputs.name
              ++ ",\"conference\":" ++ quoteJSONString w.inputs.conference
              ++ ",\"division\":" ++ quoteJSONString w.inputs.division
              ++ ",\"city\":" ++ quoteJSONString w.inputs.city ++ "\x7d")⟩
        :: rest
      ∧ rest.all (fun ev => !(ev.isRequest "POST")) = true)
    ∧ readObject ("\x7b\"name\":" ++ quoteJSONString w.inputs.name
          ++ ",\"conference\":" ++ quoteJSONString w.inputs.conference
          ++ ",\"division\":" ++ quoteJSONString w.inputs.division
          ++ ",\"city\":" ++ quoteJSONString w.inputs.city ++ "\x7d")
        = some [("name", w.inputs.name), ("conference", w.inputs.conference),
            ("division", w.inputs.division), ("city", w.inputs.city)]
    ∧ newTeamOf w.inputs = .obj [("name", .str w.inputs.name),
        ("conference", .str w.inputs.conference), ("division", .str w.inputs.division),
        ("city", .str w.inputs.city)]
    ∧ (newTeamOf w.inputs).get .id = .ok .undefined := by
  refine ⟨?_, readObject_newTeamOf w.inputs, rfl, rfl⟩
  rw [onSubmit_eq, createTeam_eq]
  rcases outcome with e | ⟨status, body⟩
  · refine ⟨[.consoleError "Error creating team:" e, .formReset], ?_,
      by simp [Event.isRequest]⟩
    apply newEvents_append
    simp [createRequest, stringify_newTeamOf]
  · cases body with
    | error e =>
      refine ⟨[.consoleError "Error creating team:" e, .formReset], ?_,
        by simp [Event.isRequest]⟩
      apply newEvents_append
      simp [createRequest, stringify_newTeamOf]
    | ok v =>
      refine ⟨[.request listRequest, .formReset], ?_, by simp [Event.isRequest, listRequest]⟩
      apply newEvents_append
      simp [createRequest, stringify_newTeamOf]

/-! ## Delete -/

/-- C8: `fetchTeams`, `createTeam` and `deleteTeam` complete normally for every
outcome of the fetch, of the decoding and of the rendering; so does the suspended
`fetchTeams` that `createTeam` and `deleteTeam` leave behind, whatever the answer
to its request; and whenever one of them fails, the last thing it does is log
that error under its own label. -/
theorem operations_never_reject (outcome nested : FetchOutcome) (team id : JSValue)
    (w : World) :
    (fetchTeams outcome w).1 = .ok ()
    ∧ (∃ v, (createTeam team outcome w).1 = .ok v)
    ∧ (deleteTeam id outcome w).1 = .ok ()
    ∧ (fetchTeamsResume nested w).1 = .ok ()
    ∧ (deliver nested (createTeam team outcome w).2).1 = .ok ()
    ∧ (deliver nested (deleteTeam id outcome w).2).1 = .ok ()
    ∧ (∀ e, listFailure outcome = some e →
        (fetchTeams outcome w).2.trace.getLast?
          = some (.consoleError "Error fetching teams:" e))
    ∧ (∀ e, createFailure outcome = some e →
        (createTeam team outcome w).2.trace.getLast?
          = some (.consoleError "Error creating team:" e))
    ∧ (∀ e, deleteFailure id outcome = some e →
        (deleteTeam id outcome w).2.trace.getLast?
          = some (.consoleError "Error deleting team:" e))
    ∧ (∀ e, listFailure nested = some e →
        (fetchTeamsResume nested w).2.trace.getLast?
          = some (.consoleError "Error fetching teams:" e)) := by
  have hres : ∀ (o : FetchOutcome) (w1 : World), (fetchTeamsResume o w1).1 = .ok () := by
    intro o w1
    rw [fetchTeamsResume_eq]
    rcases o with e | ⟨status, body⟩
    · rfl
    · cases body with
      | error e => rfl
      | ok v => simp only []; cases (rendered v).2 <;> rfl
  have hdel : ∀ (o : FetchOutcome) (w1 : World), (deliver o w1).1 = .ok () := by
    intro o w1
    simp only [deliver]
    cases h : w1.suspended with
    | nil => rfl
    | cons s rest => cases s; exact hres _ _
  refine ⟨?_, ?_, ?_, hres _ _, hdel _ _, hdel _ _, ?_, ?_, ?_, ?_⟩
  · rw [fetchTeams_eq]
    rcases outcome with e | ⟨status, body⟩
    · rfl
    · cases body with
      | error e => rfl
      | ok v => simp only []; cases (rendered v).2 <;> rfl
  · rw [createTeam_eq]
    rcases outcome with e | ⟨status, body⟩
    · exact ⟨_, rfl⟩
    · cases body with
      | error e => exact ⟨_, rfl⟩
      | ok v => exact ⟨_, rfl⟩
  · rw [deleteTeam_eq]
    cases id.toStr with
    | error e => rfl
    | ok t => cases outcome <;> rfl
  · intro e he
    rw [fetchTeams_eq]
    rcases outcome with e1 | ⟨status, body⟩
    · simp only [listFailure, Option.some.injEq] at he
      subst he
      simp
    · cases body with
      | error e1 =>
        simp only [listFailure, Option.some.injEq] at he
        subst he
        simp
      | ok v =>
        simp only [listFailure] at he
        simp [he]
  · intro e he
    rw [createTeam_eq]
    rcases outcome with e1 | ⟨status, body⟩
    · simp only [createFailure, Option.some.injEq] at he
      subst he
      simp
    · cases body with
      | error e1 =>
        simp only [createFailure, Option.some.injEq] at he
        subst he
        simp
      | ok v => simp [createFailure] at he
  · intro e he
    rw [deleteTeam_eq]
    unfold deleteFailure at he
    cases h : id.toStr with
    | error e1 =>
      simp only [h, Option.some.injEq] at he
      subst he
      simp
    | ok t =>
      simp only [h] at he
      rcases outcome with e1 | r
      · simp only [Option.some.injEq] at he
        subst he
        simp
      · simp at he
  · intro e he
    rw [fetchTeamsResume_eq]
    rcases nested with e1 | ⟨status, body⟩
    · simp only [listFailure, Option.some.injEq] at he
      subst he
      simp
    · cases body with
      | error e1 =>
        simp only [listFailure, Option.some.injEq] at he
        subst he
        simp
      | ok v =>
        simp only [listFailure] at he
        simp [he]

/-- C8, witness: the list response decodes to an array whose second element is
`null`, so rendering throws; `fetchTeams` completes normally and the error is the
last thing logged. -/
theorem operations_never_reject_witness :
    listFailure (.responds ⟨200, .ok (.arr [patriots.toJS, .null])⟩)
      = some ⟨"TypeError", "Cannot read properties of null"⟩
    ∧ (fetchTeams (.responds ⟨200, .ok (.arr [patriots.toJS, .null])⟩) stalePage).1 = .ok ()
    ∧ (fetchTeams (.responds ⟨200, .ok (.arr [patriots.toJS, .null])⟩)
        stalePage).2.trace.getLast?
        = some (.consoleError "Error fetching teams:"
            ⟨"TypeError", "Cannot read properties of null"⟩) :=
  ⟨rfl, (operations_never_reject (.responds ⟨200, .ok (.arr [patriots.toJS, .null])⟩) notJson
      .null .null stalePage).1,
    (operations_never_reject (.responds ⟨200, .ok (.arr [patriots.toJS, .null])⟩) notJson
      .null .null stalePage).2.2.2.2.2.2.1 _ rfl⟩

/-! ## Render replaces -/

/-- C9: the content of the list container after `displayTeams(teams)` does not
depend on the page before the call, so a second call with the same argument
leaves the content of the first; for a sequence of teams that content is the
sequence of their rows. -/
theorem displayTeams_idempotent (teams : JSValue) (ts : List Team) (w w2 : World) :
    (displayTeams teams w).2.teamList = (displayTeams teams w2).2.teamList
    ∧ (displayTeams teams (displayTeams teams w).2).2.teamList
        = (displayTeams teams w).2.teamList
    ∧ (displayTeams teams (displayTeams teams w).2).2 = (displayTeams teams w).2
    ∧ (displayTeams (.arr (ts.map Team.toJS)) w).2.teamList = ts.map Team.row := by
  simp only [displayTeams_eq, rendered, rowsOf_teams, and_self]

/-! ## The click listener -/

theorem datasetId_toStr (t : Target) :
    t.datasetId.toStr = .ok ((attrValue "data-id" t.attrs).getD "undefined") := by
  unfold Target.datasetId
  cases attrValue "data-id" t.attrs <;> rfl

/-- C10: a click on an element without the class `delete-btn` changes nothing:
no request, no log entry, the same page; and the listener issues a DELETE exactly
when the element has that class. -/
theorem onClick_delete_iff (t : Target) (outcome : FetchOutcome) (w : World) :
    (t.classList.contains "delete-btn" = false → onClick t outcome w = (.ok (), w))
    ∧ ((∃ ev ∈ newEvents w (onClick t outcome w).2, ev.isRequest "DELETE" = true)
        ↔ t.classList.contains "delete-btn" = true) := by
  cases h : t.classList.contains "delete-btn" with
  | false =>
    have h0 : onClick t outcome w = (.ok (), w) := by
      simp only [onClick, h]
      rfl
    refine ⟨fun _ => h0, ?_⟩
    rw [h0]
    simp [newEvents]
  | true =>
    refine ⟨fun hc => (by cases hc), ?_⟩
    have h1 : onClick t outcome w = deleteTeam t.datasetId outcome w := by
      simp only [onClick, h]
      rfl
    rw [h1, deleteTeam_eq, datasetId_toStr]
    rcases outcome with e | r <;>
      simp [newEvents, Event.isRequest, deleteRequest]

/-- C10, witness: a click on the heading of a row. -/
theorem onClick_delete_iff_witness :
    (⟨"h5", [("class", "team-name")]⟩ : Target).classList.contains "delete-btn" = false
    ∧ onClick ⟨"h5", [("class", "team-name")]⟩ notJson stalePage = (.ok (), stalePage) :=
  ⟨by decide,
    (onClick_delete_iff ⟨"h5", [("class", "team-name")]⟩ notJson stalePage).1 (by decide)⟩

end TeamApp
